import Mathlib

/-!
Verification development for the Titan event-subscription subsystem.

The development shallowly embeds the two source units of the repository:

* `src/client/src/tcp_client_blocking.rs` — the blocking TCP subscription
  listener (`subscribe` and the reader loop it spawns), together with a
  faithful model of `std::io::BufRead::read_line` over a non-blocking
  byte stream.
* `src/src/server/server.rs` — the control-plane router and the four
  subscription handlers.

Bytes on the wire are modelled as `Char` lists (the protocol is
line-oriented UTF-8 text; every payload relevant to the claims is ASCII).
Types that live outside the two source units (the `titan_types` schema,
the `api::*` registry operations, `ServerError`) are modelled from the
spec and are marked as such in their doc comments.
-/

namespace Titan

/-! ## Wire schema, modelled from the spec

The `Event` and `TcpSubscriptionRequest` types live in the external
`titan_types` crate, which is not part of the repository sources. The
spec requires: a tagged union of index-derived occurrences (new block,
new transaction, rune transfer, inscription reveal), serializable to a
single line of UTF-8 text with no embedded line terminator, with
`decode (encode x) = x`. -/

/-- Decimal digit character for `d < 10`. -/
def digitChar (d : Nat) : Char := Char.ofNat (48 + d)

/-- Little-endian decimal digits of a positive number (empty for `0`). -/
def revDigits : Nat → List Char
  | 0 => []
  | n + 1 => digitChar ((n + 1) % 10) :: revDigits ((n + 1) / 10)
decreasing_by exact Nat.div_lt_self (Nat.succ_pos n) (by omega)

/-- Decimal rendering of a natural number. -/
def natToChars (n : Nat) : List Char :=
  if n = 0 then ['0'] else (revDigits n).reverse

/-- Numeric value of a decimal digit character. -/
def digitVal (c : Char) : Option Nat :=
  if 48 ≤ c.toNat ∧ c.toNat ≤ 57 then some (c.toNat - 48) else none

/-- Fold a big-endian digit string onto an accumulator. -/
def parseDigits : Option Nat → List Char → Option Nat
  | acc, [] => acc
  | acc, c :: cs =>
      match acc, digitVal c with
      | some a, some d => parseDigits (some (a * 10 + d)) cs
      | _, _ => parseDigits none cs

/-- Parse a nonempty decimal string. -/
def charsToNat (l : List Char) : Option Nat :=
  if l = [] then none else parseDigits (some 0) l

/-- Escape one character so that the result contains neither a newline
nor the field separator `|`. -/
def escChar (c : Char) : List Char :=
  if c = '\\' then ['\\', '\\']
  else if c = '\n' then ['\\', 'n']
  else if c = '|' then ['\\', 'p']
  else [c]

/-- Escape a string field. -/
def esc : List Char → List Char
  | [] => []
  | c :: cs => escChar c ++ esc cs

/-- Undo `esc`. -/
def unesc : List Char → Option (List Char)
  | [] => some []
  | c :: cs =>
    if c = '\\' then
      match cs with
      | [] => none
      | d :: cs' =>
        match unesc cs' with
        | none => none
        | some r =>
          if d = '\\' then some ('\\' :: r)
          else if d = 'n' then some ('\n' :: r)
          else if d = 'p' then some ('|' :: r)
          else none
    else
      match unesc cs with
      | none => none
      | some r => some (c :: r)

/-- Take the next `|`-separated field: the characters before the first
separator, and everything after it. -/
def takeField : List Char → List Char × List Char
  | [] => ([], [])
  | c :: cs =>
      if c = '|' then ([], cs)
      else
        let p := takeField cs
        (c :: p.1, p.2)

/-- Modelled from the spec: the `titan_types::Event` tagged union — one
immutable index-derived occurrence (the spec's example variants). -/
inductive Event
  | newBlock (height : Nat) (hash : List Char)
  | newTransaction (txid : List Char)
  | runeTransfer (rune : List Char) (amount : Nat)
  | inscriptionReveal (inscriptionId : List Char)
deriving DecidableEq, Repr

/-- Modelled from the spec: the kind of event a subscription filters on. -/
inductive EventKind
  | newBlock
  | newTransaction
  | runeTransfer
  | inscriptionReveal
deriving DecidableEq, Repr

/-- Modelled from the spec: `titan_types::TcpSubscriptionRequest` — the
one-time filter criteria sent by a client at connection establishment. -/
structure TcpSubscriptionRequest where
  kinds : List EventKind
  filter : List Char
deriving DecidableEq, Repr

/-- One-character tag for an event kind. -/
def kindChar : EventKind → Char
  | .newBlock => 'b'
  | .newTransaction => 't'
  | .runeTransfer => 'r'
  | .inscriptionReveal => 'i'

/-- Parse a string of event-kind tags. -/
def parseKinds : List Char → Option (List EventKind)
  | [] => some []
  | c :: cs =>
      match parseKinds cs with
      | none => none
      | some ks =>
        if c = 'b' then some (.newBlock :: ks)
        else if c = 't' then some (.newTransaction :: ks)
        else if c = 'r' then some (.runeTransfer :: ks)
        else if c = 'i' then some (.inscriptionReveal :: ks)
        else none

/-- Modelled from the spec: serialize an `Event` to a single line of
text (the concrete JSON framing of `titan_types` is outside the
repository sources; the spec's contract is a newline-free line that
round-trips). -/
def encodeEvent : Event → List Char
  | .newBlock h hs => "newBlock".toList ++ '|' :: (natToChars h ++ '|' :: esc hs)
  | .newTransaction t => "newTransaction".toList ++ '|' :: esc t
  | .runeTransfer r a => "runeTransfer".toList ++ '|' :: (esc r ++ '|' :: natToChars a)
  | .inscriptionReveal i => "inscriptionReveal".toList ++ '|' :: esc i

/-- Modelled from the spec: decode one line back into an `Event`. -/
def decodeEvent (l : List Char) : Option Event :=
  let p := takeField l
  if p.1 = "newBlock".toList then
    let f1 := takeField p.2
    let f2 := takeField f1.2
    match charsToNat f1.1, unesc f2.1 with
    | some h, some hs => some (.newBlock h hs)
    | _, _ => none
  else if p.1 = "newTransaction".toList then
    match unesc p.2 with
    | some t => some (.newTransaction t)
    | none => none
  else if p.1 = "runeTransfer".toList then
    let f1 := takeField p.2
    let f2 := takeField f1.2
    match unesc f1.1, charsToNat f2.1 with
    | some r, some a => some (.runeTransfer r a)
    | _, _ => none
  else if p.1 = "inscriptionReveal".toList then
    match unesc p.2 with
    | some i => some (.inscriptionReveal i)
    | none => none
  else none

/-- Modelled from the spec: serialize a `TcpSubscriptionRequest` to a
single newline-free line. -/
def encodeRequest (r : TcpSubscriptionRequest) : List Char :=
  r.kinds.map kindChar ++ '|' :: esc r.filter

/-- Modelled from the spec: decode one line back into a
`TcpSubscriptionRequest`. -/
def decodeRequest (l : List Char) : Option TcpSubscriptionRequest :=
  let p := takeField l
  match parseKinds p.1, unesc p.2 with
  | some ks, some f => some ⟨ks, f⟩
  | _, _ => none

/-! ## Client delivery listener, from `src/client/src/tcp_client_blocking.rs`

The non-blocking TCP stream is modelled as a list of `Chunk`s: the
successive results of the underlying `TcpStream::read` calls issued by
the `BufReader` when its internal buffer is empty. `Chunk.data bs`
models a read returning the bytes `bs` (a read returning zero bytes —
peer closed — is `data []`, and an exhausted chunk list also reads as
end of stream), `Chunk.wouldBlock` models `ErrorKind::WouldBlock`, and
`Chunk.ioErr` models any other I/O error. -/

inductive Chunk
  | data (bytes : List Char)
  | wouldBlock
  | ioErr
deriving DecidableEq, Repr

/-- Reader state: the `BufReader`'s internal buffer (bytes read from the
socket but not yet consumed) plus the pending underlying reads. -/
structure RState where
  buf : List Char
  chunks : List Chunk
deriving DecidableEq, Repr

/-- Outcome of one `read_line` call. Each constructor carries the bytes
the call appended to the caller's `line` string: `std::io::read_until`
appends everything it consumes to the buffer even when it subsequently
returns an error, so `wouldBlock` and `fatal` can carry a partial line
that has already been consumed from the stream. -/
inductive ReadOutcome
  | ok (line : List Char)
  | wouldBlock (line : List Char)
  | fatal (line : List Char)
deriving DecidableEq, Repr

/-- Split a byte list at its first newline: the prefix including the
newline, and the remainder. `none` when it contains no newline. -/
def splitAtNl : List Char → Option (List Char × List Char)
  | [] => none
  | c :: cs =>
      if c = '\n' then some ([c], cs)
      else
        match splitAtNl cs with
        | some p => some (c :: p.1, p.2)
        | none => none

/-- The `fill_buf`/consume loop inside `read_until` once the buffered
bytes are known to contain no newline: `acc` has already been appended
and consumed; keep issuing underlying reads until a newline, end of
stream, or an error. -/
def fillLoop : List Char → List Chunk → ReadOutcome × RState
  | acc, [] => (.ok acc, ⟨[], []⟩)
  | acc, .wouldBlock :: rest => (.wouldBlock acc, ⟨[], rest⟩)
  | acc, .ioErr :: rest => (.fatal acc, ⟨[], rest⟩)
  | acc, .data bs :: rest =>
      if bs = [] then (.ok acc, ⟨[], rest⟩)
      else
        match splitAtNl bs with
        | some p => (.ok (acc ++ p.1), ⟨p.2, rest⟩)
        | none => fillLoop (acc ++ bs) rest

/-- Model of `BufRead::read_line(&mut line)` as called with an empty
`line`: consume up to and including the first newline (or to end of
stream), returning the appended bytes and the new reader state. -/
def read_line (s : RState) : ReadOutcome × RState :=
  match splitAtNl s.buf with
  | some p => (.ok p.1, ⟨p.2, s.chunks⟩)
  | none => fillLoop s.buf s.chunks

/-- The appended line carried by a `ReadOutcome`. -/
def outLine : ReadOutcome → List Char
  | .ok l => l
  | .wouldBlock l => l
  | .fatal l => l

/-- Weight of one pending read, for termination: its byte count plus
one for the read call itself. -/
def chunkWeight : Chunk → Nat
  | .data bs => bs.length + 1
  | .wouldBlock => 1
  | .ioErr => 1

/-- Total weight of a reader state. -/
def rweight (s : RState) : Nat :=
  s.buf.length + (s.chunks.map chunkWeight).sum

/-- Why the spawned reader thread exited its loop, mirroring the four
`break` sites of the source. -/
inductive ExitReason
  | shutdown
  | connClosed
  | recvDropped
  | ioFailure
deriving DecidableEq, Repr

/-- Rust `str::trim` restricted to the ASCII whitespace occurring in the
line protocol (the source trims Unicode whitespace; the wire payloads
relevant here are ASCII). -/
def isWs (c : Char) : Bool :=
  c = ' ' || c = '\t' || c = '\n' || c = '\r'

/-- Drop trailing whitespace. -/
def dropTrail (l : List Char) : List Char :=
  (l.reverse.dropWhile isWs).reverse

/-- Model of `str::trim`. -/
def trim (l : List Char) : List Char :=
  dropTrail (l.dropWhile isWs)

/-- A successful split returns a decomposition of the input whose first
part is nonempty (it contains the newline). -/
theorem splitAtNl_spec : ∀ (bs : List Char) (p : List Char × List Char),
    splitAtNl bs = some p → p.1 ++ p.2 = bs ∧ 0 < p.1.length := by
  intro bs
  induction bs with
  | nil => intro p h; simp [splitAtNl] at h
  | cons c cs ih =>
    intro p h
    simp only [splitAtNl] at h
    split at h
    · injection h with h1
      subst h1
      simp
    · split at h
      · injection h with h1
        subst h1
        rename_i q hq
        have := ih q hq
        refine ⟨?_, by simp⟩
        simpa using this.1
      · exact absurd h (by simp)

/-- The bytes a `fillLoop` call appends plus the weight of what remains
never exceed the weight it started from. -/
theorem fillLoop_wt : ∀ (chs : List Chunk) (acc : List Char) (o : ReadOutcome) (s' : RState),
    fillLoop acc chs = (o, s') →
    rweight s' + (outLine o).length ≤ acc.length + (chs.map chunkWeight).sum := by
  intro chs
  induction chs with
  | nil =>
    intro acc o s' h
    simp only [fillLoop] at h
    injection h with h1 h2
    subst h1; subst h2
    simp [rweight, outLine]
  | cons c rest ih =>
    intro acc o s' h
    cases c with
    | wouldBlock =>
      simp only [fillLoop] at h
      injection h with h1 h2
      subst h1; subst h2
      simp [rweight, outLine, chunkWeight]
      omega
    | ioErr =>
      simp only [fillLoop] at h
      injection h with h1 h2
      subst h1; subst h2
      simp [rweight, outLine, chunkWeight]
      omega
    | data bs =>
      simp only [fillLoop] at h
      split at h
      · injection h with h1 h2
        subst h1; subst h2
        rename_i hbs
        subst hbs
        simp [rweight, outLine, chunkWeight]
        omega
      · split at h
        · injection h with h1 h2
          subst h1; subst h2
          rename_i p hsp
          have hb := splitAtNl_spec bs p hsp
          have hlen : p.1.length + p.2.length = bs.length := by
            rw [← hb.1]; simp
          simp [rweight, outLine, chunkWeight]
          omega
        · have := ih (acc ++ bs) o s' h
          simp only [List.length_append] at this
          simp [chunkWeight]
          omega

/-- A `fillLoop` call that ends in `WouldBlock` strictly decreases the
weight: the blocked read call itself is consumed. -/
theorem fillLoop_wb : ∀ (chs : List Chunk) (acc l : List Char) (s' : RState),
    fillLoop acc chs = (.wouldBlock l, s') →
    rweight s' + l.length < acc.length + (chs.map chunkWeight).sum := by
  intro chs
  induction chs with
  | nil =>
    intro acc l s' h
    simp only [fillLoop] at h
    injection h with h1 h2
    injection h1
  | cons c rest ih =>
    intro acc l s' h
    cases c with
    | wouldBlock =>
      simp only [fillLoop] at h
      injection h with h1 h2
      injection h1 with h1
      subst h1; subst h2
      simp [rweight, chunkWeight]
      omega
    | ioErr =>
      simp only [fillLoop] at h
      injection h with h1 h2
      injection h1
    | data bs =>
      simp only [fillLoop] at h
      split at h
      · injection h with h1 h2
        injection h1
      · split at h
        · injection h with h1 h2
          injection h1
        · have := ih (acc ++ bs) l s' h
          simp only [List.length_append] at this
          simp [chunkWeight]
          omega

/-- One `read_line` call never grows the reader weight by more than the
bytes it hands back. -/
theorem read_line_wt {s : RState} {o : ReadOutcome} {s' : RState}
    (h : read_line s = (o, s')) : rweight s' + (outLine o).length ≤ rweight s := by
  unfold read_line at h
  split at h
  · injection h with h1 h2
    subst h1; subst h2
    rename_i p hsp
    have hb := splitAtNl_spec s.buf p hsp
    have hlen : p.1.length + p.2.length = s.buf.length := by
      rw [← hb.1]; simp
    simp only [rweight, outLine]
    omega
  · have hw := fillLoop_wt s.chunks s.buf o s' h
    simp only [rweight] at hw ⊢
    omega

/-- A `read_line` call that returns `WouldBlock` strictly decreases the
reader weight. -/
theorem read_line_wb {s : RState} {l : List Char} {s' : RState}
    (h : read_line s = (.wouldBlock l, s')) : rweight s' + l.length < rweight s := by
  unfold read_line at h
  split at h
  · injection h with h1 h2
    injection h1
  · have hw := fillLoop_wb s.chunks s.buf l s' h
    simp only [rweight] at hw ⊢
    omega

section Listener

variable {ε : Type} (dec : List Char → Option ε) (sd alive : Nat → Bool)

/-- The body of the thread spawned by `subscribe`
(`src/client/src/tcp_client_blocking.rs`, lines 73–114). `dec` is
`serde_json::from_str::<Event>` on the trimmed line; `sd i` is the value
`shutdown_flag.load(Ordering::SeqCst)` observes at the loop check of
iteration `i`; `alive k` tells whether the receiver is still alive when
the `k`-th successfully decoded event is sent (`tx.send`). The result
collects the events delivered through the channel, the number of
parse-failure diagnostics logged, and the reason the loop exited. -/
def listener_loop (i k : Nat) (s : RState) : List ε × Nat × ExitReason :=
  if sd i then ([], 0, .shutdown)
  else
    match h : read_line s with
    | (.ok line, s') =>
      if line = [] then ([], 0, .connClosed)
      else if trim line = [] then listener_loop (i + 1) k s'
      else
        match dec (trim line) with
        | some e =>
          if alive k then
            let r := listener_loop (i + 1) (k + 1) s'
            (e :: r.1, r.2.1, r.2.2)
          else ([], 0, .recvDropped)
        | none =>
          let r := listener_loop (i + 1) k s'
          (r.1, r.2.1 + 1, r.2.2)
    | (.wouldBlock _dropped, s') => listener_loop (i + 1) k s'
    | (.fatal _line, _s') => ([], 0, .ioFailure)
termination_by rweight s
decreasing_by
  · have hw := read_line_wt h
    simp only [outLine] at hw
    have : 0 < line.length := List.length_pos.mpr (by assumption)
    omega
  · have hw := read_line_wt h
    simp only [outLine] at hw
    have : 0 < line.length := List.length_pos.mpr (by assumption)
    omega
  · have hw := read_line_wt h
    simp only [outLine] at hw
    have : 0 < line.length := List.length_pos.mpr (by assumption)
    omega
  · have hw := read_line_wb h
    omega

end Listener

section ListenerLemmas

variable {ε : Type} (dec : List Char → Option ε) (sd alive : Nat → Bool)

/-- Unfolding: a loop iteration that observes the shutdown flag exits at
once with no event. -/
theorem listener_loop_shutdown {i k : Nat} {s : RState} (hsd : sd i = true) :
    listener_loop dec sd alive i k s = ([], 0, .shutdown) := by
  conv_lhs => unfold listener_loop
  rw [hsd]
  simp

/-- Unfolding: a read of zero bytes ends the loop as a normal close. -/
theorem listener_loop_eof {i k : Nat} {s s' : RState} (hsd : sd i = false)
    (h : read_line s = (.ok [], s')) :
    listener_loop dec sd alive i k s = ([], 0, .connClosed) := by
  conv_lhs => unfold listener_loop
  rw [hsd]
  simp only [Bool.false_eq_true, if_false]
  split
  · rename_i line s₁ heq
    rw [h] at heq
    injection heq with h1 h2
    injection h1 with h1
    subst h1
    simp
  · rename_i heq
    rw [h] at heq
    injection heq with h1
    injection h1
  · rename_i heq
    rw [h] at heq
    injection heq with h1
    injection h1

/-- Unfolding: an all-whitespace line is skipped and the loop goes on. -/
theorem listener_loop_blank {i k : Nat} {s s' : RState} {line : List Char}
    (hsd : sd i = false) (h : read_line s = (.ok line, s'))
    (hne : line ≠ []) (htr : trim line = []) :
    listener_loop dec sd alive i k s = listener_loop dec sd alive (i + 1) k s' := by
  conv_lhs => unfold listener_loop
  rw [hsd]
  simp only [Bool.false_eq_true, if_false]
  split
  · rename_i line₁ s₁ heq
    rw [h] at heq
    injection heq with h1 h2
    injection h1 with h1
    subst h1; subst h2
    rw [if_neg hne, if_pos htr]
  · rename_i heq
    rw [h] at heq
    injection heq with h1
    injection h1
  · rename_i heq
    rw [h] at heq
    injection heq with h1
    injection h1

/-- Unfolding: a line that decodes is sent to a live receiver and the
loop goes on, the event prepended to whatever the rest produces. -/
theorem listener_loop_event {i k : Nat} {s s' : RState} {line : List Char} {e : ε}
    (hsd : sd i = false) (h : read_line s = (.ok line, s'))
    (hne : line ≠ []) (htr : trim line ≠ [])
    (hdec : dec (trim line) = some e) (hal : alive k = true) :
    listener_loop dec sd alive i k s =
      (e :: (listener_loop dec sd alive (i + 1) (k + 1) s').1,
        (listener_loop dec sd alive (i + 1) (k + 1) s').2.1,
        (listener_loop dec sd alive (i + 1) (k + 1) s').2.2) := by
  conv_lhs => unfold listener_loop
  rw [hsd]
  simp only [Bool.false_eq_true, if_false]
  split
  · rename_i line₁ s₁ heq
    rw [h] at heq
    injection heq with h1 h2
    injection h1 with h1
    subst h1; subst h2
    rw [if_neg hne, if_neg htr, hdec]
    simp [hal]
  · rename_i heq
    rw [h] at heq
    injection heq with h1
    injection h1
  · rename_i heq
    rw [h] at heq
    injection heq with h1
    injection h1

/-- Unfolding: a decoded event sent to a dropped receiver ends the loop
at once with no further event. -/
theorem listener_loop_dropped {i k : Nat} {s s' : RState} {line : List Char} {e : ε}
    (hsd : sd i = false) (h : read_line s = (.ok line, s'))
    (hne : line ≠ []) (htr : trim line ≠ [])
    (hdec : dec (trim line) = some e) (hal : alive k = false) :
    listener_loop dec sd alive i k s = ([], 0, .recvDropped) := by
  conv_lhs => unfold listener_loop
  rw [hsd]
  simp only [Bool.false_eq_true, if_false]
  split
  · rename_i line₁ s₁ heq
    rw [h] at heq
    injection heq with h1 h2
    injection h1 with h1
    subst h1; subst h2
    rw [if_neg hne, if_neg htr, hdec]
    simp [hal]
  · rename_i heq
    rw [h] at heq
    injection heq with h1
    injection h1
  · rename_i heq
    rw [h] at heq
    injection heq with h1
    injection h1

/-- Unfolding: a line that fails to decode is logged as a diagnostic and
the loop goes on. -/
theorem listener_loop_malformed {i k : Nat} {s s' : RState} {line : List Char}
    (hsd : sd i = false) (h : read_line s = (.ok line, s'))
    (hne : line ≠ []) (htr : trim line ≠ [])
    (hdec : dec (trim line) = none) :
    listener_loop dec sd alive i k s =
      ((listener_loop dec sd alive (i + 1) k s').1,
        (listener_loop dec sd alive (i + 1) k s').2.1 + 1,
        (listener_loop dec sd alive (i + 1) k s').2.2) := by
  conv_lhs => unfold listener_loop
  rw [hsd]
  simp only [Bool.false_eq_true, if_false]
  split
  · rename_i line₁ s₁ heq
    rw [h] at heq
    injection heq with h1 h2
    injection h1 with h1
    subst h1; subst h2
    rw [if_neg hne, if_neg htr, hdec]
  · rename_i heq
    rw [h] at heq
    injection heq with h1
    injection h1
  · rename_i heq
    rw [h] at heq
    injection heq with h1
    injection h1

/-- Unfolding: a `WouldBlock` read sleeps and retries; whatever partial
line `read_line` had already consumed is discarded by the `line.clear()`
at the top of the next iteration. -/
theorem listener_loop_wb {i k : Nat} {s s' : RState} {l : List Char}
    (hsd : sd i = false) (h : read_line s = (.wouldBlock l, s')) :
    listener_loop dec sd alive i k s = listener_loop dec sd alive (i + 1) k s' := by
  conv_lhs => unfold listener_loop
  rw [hsd]
  simp only [Bool.false_eq_true, if_false]
  split
  · rename_i heq
    rw [h] at heq
    injection heq with h1
    injection h1
  · rename_i l₁ s₁ heq
    rw [h] at heq
    injection heq with h1 h2
    injection h1 with h1
    subst h2
    rfl
  · rename_i heq
    rw [h] at heq
    injection heq with h1
    injection h1

/-- Unfolding: any other I/O error ends the loop. -/
theorem listener_loop_fatal {i k : Nat} {s s' : RState} {l : List Char}
    (hsd : sd i = false) (h : read_line s = (.fatal l, s')) :
    listener_loop dec sd alive i k s = ([], 0, .ioFailure) := by
  conv_lhs => unfold listener_loop
  rw [hsd]
  simp only [Bool.false_eq_true, if_false]
  split
  · rename_i heq
    rw [h] at heq
    injection heq with h1
    injection h1
  · rename_i heq
    rw [h] at heq
    injection heq with h1
    injection h1
  · rename_i heq
    rfl

end ListenerLemmas

/-! ## The wire stream as the claims describe it -/

/-- All bytes a stream of reads carries, in wire order. -/
def streamBytes : List Chunk → List Char
  | [] => []
  | .data bs :: rest => bs ++ streamBytes rest
  | .wouldBlock :: rest => streamBytes rest
  | .ioErr :: rest => streamBytes rest

/-- Split a byte sequence into its newline-terminated lines (`cur` is
the reversed prefix of the current line). A nonempty final fragment
without a terminator counts as a line. -/
def wireLinesGo : List Char → List Char → List (List Char)
  | cur, [] => if cur = [] then [] else [cur.reverse]
  | cur, c :: cs =>
      if c = '\n' then cur.reverse :: wireLinesGo [] cs
      else wireLinesGo (c :: cur) cs

/-- The lines of a byte stream. -/
def wireLines (bs : List Char) : List (List Char) :=
  wireLinesGo [] bs

/-- The well-formed event lines of a byte stream, decoded in wire
order: what the spec says the consumer must observe. -/
def wireEvents {ε : Type} (dec : List Char → Option ε) (bs : List Char) : List ε :=
  (wireLines bs).filterMap fun l => dec (trim l)

/-- Splitting at the first newline of a line-structured buffer. -/
theorem splitAtNl_of_line {l : List Char} (hl : '\n' ∉ l) :
    ∀ rest, splitAtNl (l ++ '\n' :: rest) = some (l ++ ['\n'], rest) := by
  induction l with
  | nil => intro rest; simp [splitAtNl]
  | cons c cs ih =>
    intro rest
    have hc : c ≠ '\n' := by
      intro hcontra
      exact hl (by simp [hcontra])
    have hcs : '\n' ∉ cs := by
      intro hcontra
      exact hl (by simp [hcontra])
    simp only [List.cons_append, splitAtNl, if_neg hc, List.append_eq, ih hcs rest]

/-- Reading from a buffer whose first line is complete returns exactly
that line, newline included. -/
theorem read_line_of_buf {l : List Char} (hl : '\n' ∉ l) (rest : List Char)
    (chs : List Chunk) :
    read_line ⟨l ++ '\n' :: rest, chs⟩ = (.ok (l ++ ['\n']), ⟨rest, chs⟩) := by
  unfold read_line
  simp [splitAtNl_of_line hl rest]

/-- Reading when the buffer is empty and the next read returns a chunk
whose first line is complete. -/
theorem read_line_of_chunk {l : List Char} (hl : '\n' ∉ l) (rest : List Char)
    (chs : List Chunk) :
    read_line ⟨[], .data (l ++ '\n' :: rest) :: chs⟩ = (.ok (l ++ ['\n']), ⟨rest, chs⟩) := by
  unfold read_line
  simp only [splitAtNl]
  unfold fillLoop
  rw [if_neg (by simp)]
  simp [splitAtNl_of_line hl rest]

/-- Reading at end of stream yields zero bytes. -/
theorem read_line_eof (chs : List Chunk) :
    read_line ⟨[], []⟩ = (.ok [], ⟨[], []⟩) ∧
      read_line ⟨[], .data [] :: chs⟩ = (.ok [], ⟨[], chs⟩) := by
  constructor <;> rfl

/-- Dropping a trailing newline does not change the trailing-whitespace
strip. -/
theorem dropTrail_append_nl (l : List Char) : dropTrail (l ++ ['\n']) = dropTrail l := by
  simp [dropTrail, List.dropWhile_cons, isWs]

/-- The terminator a line was read with is trimmed away. -/
theorem trim_append_nl (l : List Char) : trim (l ++ ['\n']) = trim l := by
  induction l with
  | nil => rfl
  | cons c cs ih =>
    by_cases hc : isWs c
    · simpa [trim, List.dropWhile_cons, hc] using ih
    · show trim ((c :: cs) ++ ['\n']) = trim (c :: cs)
      simp only [trim, List.cons_append, List.dropWhile_cons, hc, Bool.false_eq_true,
        if_false]
      exact dropTrail_append_nl (c :: cs)

section DeadConsumer

variable {ε : Type} (dec : List Char → Option ε) (sd alive : Nat → Bool)

/-- Once the receiving half is gone, no event is ever delivered: every
decoded event hits the failed send and the loop stops before conveying
anything. -/
theorem listener_loop_dead :
    ∀ i k s, (∀ j, k ≤ j → alive j = false) →
      (listener_loop dec sd alive i k s).1 = [] := by
  intro i k s
  induction i, k, s using listener_loop.induct dec sd alive with
  | case1 i k s hsd =>
    intro _hd
    rw [listener_loop_shutdown dec sd alive hsd]
  | case2 i k s hsd s' heq =>
    intro _hd
    rw [listener_loop_eof dec sd alive (by simpa using hsd) heq]
  | case3 i k s hsd line s' heq hne htr ih =>
    intro hd
    rw [listener_loop_blank dec sd alive (by simpa using hsd) heq hne htr]
    exact ih hd
  | case4 i k s hsd line s' heq hne htr e hdec hal ih =>
    intro hd
    exact absurd hal (by simp [hd k (Nat.le_refl k)])
  | case5 i k s hsd line s' heq hne htr e hdec hal =>
    intro _hd
    rw [listener_loop_dropped dec sd alive (by simpa using hsd) heq hne
      (fun hcontra => htr hcontra) hdec (by simpa using hal)]
  | case6 i k s hsd line s' heq hne htr hdec ih =>
    intro hd
    rw [listener_loop_malformed dec sd alive (by simpa using hsd) heq hne
      (fun hcontra => htr hcontra) hdec]
    exact ih hd
  | case7 i k s hsd l s' heq ih =>
    intro hd
    rw [listener_loop_wb dec sd alive (by simpa using hsd) heq]
    exact ih hd
  | case8 i k s hsd l s' heq =>
    intro _hd
    rw [listener_loop_fatal dec sd alive (by simpa using hsd) heq]

end DeadConsumer

/-! ## The setup phase of `subscribe`
(`src/client/src/tcp_client_blocking.rs`, lines 47–117) -/

/-- The source's `TcpClientError` enum: an I/O error or a serde error,
each wrapping the underlying error (kept as its message). -/
inductive TcpClientError
  | IOError (e : List Char)
  | SerdeError (e : List Char)
deriving DecidableEq, Repr

/-- Results the environment returns for each fallible call `subscribe`
makes before spawning the reader thread, in source order. -/
structure NetOps where
  connect : Except (List Char) Unit
  set_nonblocking : Except (List Char) Unit
  try_clone : Except (List Char) Unit
  to_string : Except (List Char) (List Char)
  write_req : Except (List Char) Unit
  write_nl : Except (List Char) Unit
  flush : Except (List Char) Unit

/-- The externally observable actions `subscribe` performs before it
returns. `spawnReader` marks the spawn of the background reader thread,
the only place any event is read; returning the receiver follows it. -/
inductive NetAction
  | connectTo (addr : List Char)
  | setNonblockingCall
  | tryCloneCall
  | writeCall (bytes : List Char)
  | flushCall
  | spawnReader
deriving DecidableEq, Repr

/-- Model of the setup phase of `subscribe`: connect, switch to
non-blocking mode, clone the stream for reading, serialize the request,
write it, write one newline, flush, then spawn the reader thread and
return the receiver. Each `?` in the source is an early return carrying
the converted error. The model returns the action trace together with
the result handed to the caller. -/
def subscribe (addr : List Char) (ops : NetOps) :
    List NetAction × Except TcpClientError Unit :=
  match ops.connect with
  | .error e => ([.connectTo addr], .error (.IOError e))
  | .ok _ =>
    match ops.set_nonblocking with
    | .error e => ([.connectTo addr, .setNonblockingCall], .error (.IOError e))
    | .ok _ =>
      match ops.try_clone with
      | .error e =>
          ([.connectTo addr, .setNonblockingCall, .tryCloneCall], .error (.IOError e))
      | .ok _ =>
        match ops.to_string with
        | .error e =>
            ([.connectTo addr, .setNonblockingCall, .tryCloneCall],
              .error (.SerdeError e))
        | .ok req_json =>
          match ops.write_req with
          | .error e =>
              ([.connectTo addr, .setNonblockingCall, .tryCloneCall,
                .writeCall req_json], .error (.IOError e))
          | .ok _ =>
            match ops.write_nl with
            | .error e =>
                ([.connectTo addr, .setNonblockingCall, .tryCloneCall,
                  .writeCall req_json, .writeCall ['\n']], .error (.IOError e))
            | .ok _ =>
              match ops.flush with
              | .error e =>
                  ([.connectTo addr, .setNonblockingCall, .tryCloneCall,
                    .writeCall req_json, .writeCall ['\n'], .flushCall],
                    .error (.IOError e))
              | .ok _ =>
                  ([.connectTo addr, .setNonblockingCall, .tryCloneCall,
                    .writeCall req_json, .writeCall ['\n'], .flushCall,
                    .spawnReader], .ok ())

/-! ## Control-plane gateway, from `src/src/server/server.rs` -/

/-- Modelled from the spec: a control-plane `Subscription` record — a
durable, identified registration holding filter criteria. -/
structure Subscription where
  id : List Char
  filter : List Char
deriving DecidableEq, Repr

/-- Modelled from the spec: the error the Subscription Registry reports
when an identifier does not exist. -/
inductive ApiError
  | notFound
deriving DecidableEq, Repr

/-- Modelled from the spec: `ServerError`'s classifications used by the
subscription handlers — client error (400-class) and not-found
(404-class). The type lives in the repository's `server/error.rs`,
which is not among the sources. -/
inductive ServerError
  | BadRequest (msg : List Char)
  | NotFound (msg : List Char)
deriving DecidableEq, Repr

/-- Modelled from the spec: the `?` conversion of a registry error into
a response classification (registry-reported not-found maps to the
404-class). -/
def ofApi {α : Type} : Except ApiError α → Except ServerError α
  | .ok a => .ok a
  | .error .notFound => .error (.NotFound "not found".toList)

/-- The server configuration, reduced to the one field the subscription
handlers read (the full `ServerConfig` lives outside the sources). -/
structure ServerConfig where
  enable_subscriptions : Bool
deriving DecidableEq, Repr

namespace api

/-- Modelled from the spec: list all active subscriptions. -/
def subscriptions (st : List Subscription) : Except ApiError (List Subscription) :=
  .ok st

/-- Modelled from the spec: get one subscription by identifier;
not-found when the identifier does not exist. -/
def get_subscription (st : List Subscription) (id : List Char) :
    Except ApiError Subscription :=
  match st.find? (fun s => s.id == id) with
  | some s => .ok s
  | none => .error .notFound

/-- Modelled from the spec: create a subscription from the submitted
filter, returning the created record. -/
def add_subscription (_st : List Subscription) (sub : Subscription) :
    Except ApiError Subscription :=
  .ok sub

/-- Modelled from the spec: delete a subscription by identifier;
confirmation when it exists, not-found otherwise. -/
def delete_subscription (st : List Subscription) (id : List Char) :
    Except ApiError Unit :=
  if st.any (fun s => s.id == id) then .ok () else .error .notFound

end api

namespace Server

/-- Handler `Server::subscriptions` (server.rs lines 215–224): feature
flag first, then delegate to the registry. The registry call is a
parameter, mirroring that `api::subscriptions` is an external
collaborator. -/
def subscriptions (api_list : List Subscription → Except ApiError (List Subscription))
    (config : ServerConfig) (st : List Subscription) :
    Except ServerError (List Subscription) :=
  if !config.enable_subscriptions then
    .error (.BadRequest "subscriptions are not enabled".toList)
  else
    ofApi (api_list st)

/-- Handler `Server::add_subscription` (server.rs lines 226–241). -/
def add_subscription (api_add : List Subscription → Subscription → Except ApiError Subscription)
    (config : ServerConfig) (st : List Subscription) (subscription : Subscription) :
    Except ServerError Subscription :=
  if !config.enable_subscriptions then
    .error (.BadRequest "subscriptions are not enabled".toList)
  else
    ofApi (api_add st subscription)

/-- Handler `Server::delete_subscription` (server.rs lines 243–258). -/
def delete_subscription (api_delete : List Subscription → List Char → Except ApiError Unit)
    (config : ServerConfig) (st : List Subscription) (id : List Char) :
    Except ServerError Unit :=
  if !config.enable_subscriptions then
    .error (.BadRequest "subscriptions are not enabled".toList)
  else
    ofApi (api_delete st id)

/-- Handler `Server::get_subscription` (server.rs lines 260–274). -/
def get_subscription (api_get : List Subscription → List Char → Except ApiError Subscription)
    (config : ServerConfig) (st : List Subscription) (id : List Char) :
    Except ServerError Subscription :=
  if !config.enable_subscriptions then
    .error (.BadRequest "subscriptions are not enabled".toList)
  else
    ofApi (api_get st id)

end Server

/-- HTTP method, restricted to the ones the router registers. -/
inductive Method
  | get
  | post
  | delete
deriving DecidableEq, Repr

/-- One segment of a route pattern: a literal or a `{…}` capture. -/
inductive Seg
  | lit (s : List Char)
  | capture
deriving DecidableEq, Repr

/-- The handlers the router of `Server::start` names. -/
inductive HandlerId
  | statusH
  | tipH
  | blockH
  | addressH
  | transactionH
  | outputH
  | inscriptionH
  | runesH
  | runeH
  | rune_transactionsH
  | mempool_txidsH
  | get_subscriptionH
  | add_subscriptionH
  | delete_subscriptionH
  | subscriptionsH
deriving DecidableEq, Repr

/-- The route table built in `Server::start` (server.rs lines 56–80),
pattern by pattern. Note the delete handler is registered on the
`/subscription` pattern (no `{id}` segment), while `/subscription/{id}`
carries only the get handler. -/
def routes : List (List Seg × List (Method × HandlerId)) :=
  [ ([.lit "status".toList], [(.get, .statusH)]),
    ([.lit "tip".toList], [(.get, .tipH)]),
    ([.lit "block".toList, .capture], [(.get, .blockH)]),
    ([.lit "address".toList, .capture], [(.get, .addressH)]),
    ([.lit "tx".toList, .capture], [(.get, .transactionH)]),
    ([.lit "output".toList, .capture], [(.get, .outputH)]),
    ([.lit "inscription".toList, .capture], [(.get, .inscriptionH)]),
    ([.lit "runes".toList], [(.get, .runesH)]),
    ([.lit "rune".toList, .capture], [(.get, .runeH)]),
    ([.lit "rune".toList, .capture, .lit "transactions".toList],
      [(.get, .rune_transactionsH)]),
    ([.lit "mempool".toList, .lit "txids".toList], [(.get, .mempool_txidsH)]),
    ([.lit "subscription".toList, .capture], [(.get, .get_subscriptionH)]),
    ([.lit "subscription".toList],
      [(.post, .add_subscriptionH), (.delete, .delete_subscriptionH)]),
    ([.lit "subscriptions".toList], [(.get, .subscriptionsH)]) ]

/-- Match a request path against a pattern, collecting captures. -/
def matchSegs : List Seg → List (List Char) → Option (List (List Char))
  | [], [] => some []
  | .lit s :: ps, x :: xs => if x = s then matchSegs ps xs else none
  | .capture :: ps, x :: xs =>
      match matchSegs ps xs with
      | some cs => some (x :: cs)
      | none => none
  | _, _ => none

/-- Routing outcome: a handler with its captures, a matched path whose
method is not registered (405), or no matching path (404). -/
inductive RouteResult
  | found (h : HandlerId) (captures : List (List Char))
  | methodNotAllowed
  | pathNotFound
deriving DecidableEq, Repr

/-- Walk the route table; the patterns are pairwise non-overlapping, so
first match is the match. -/
def findRoute (m : Method) (path : List (List Char)) :
    List (List Seg × List (Method × HandlerId)) → RouteResult
  | [] => .pathNotFound
  | (pat, hs) :: rest =>
      match matchSegs pat path with
      | some caps =>
          match hs.find? (fun mh => mh.1 == m) with
          | some mh => .found mh.2 caps
          | none => .methodNotAllowed
      | none => findRoute m path rest

/-- Route a request through the table of `Server::start`. -/
def route (m : Method) (path : List (List Char)) : RouteResult :=
  findRoute m path routes

/-- Hex digit test, for the `Uuid` path parser. -/
def isHexDigit (c : Char) : Bool :=
  ('0' ≤ c && c ≤ '9') || ('a' ≤ c && c ≤ 'f') || ('A' ≤ c && c ≤ 'F')

/-- Split at `-` characters. -/
def dashSplit : List Char → List (List Char)
  | [] => [[]]
  | c :: cs =>
      if c = '-' then [] :: dashSplit cs
      else
        match dashSplit cs with
        | g :: gs => (c :: g) :: gs
        | [] => [[c]]

/-- Hyphenated-UUID shape test (8-4-4-4-12 hex groups), the format
`Path<Uuid>` deserializes. -/
def isUuid (s : List Char) : Bool :=
  ((dashSplit s).map List.length == [8, 4, 4, 4, 12]) &&
    s.all (fun c => c = '-' || isHexDigit c)

/-- Parse a path segment as a `Uuid`. -/
def parseUuid (s : List Char) : Option (List Char) :=
  if isUuid s then some s else none

/-- Response classification seen by the HTTP client. -/
inductive HttpResp
  | okJson
  | clientError (msg : List Char)
  | notFoundResp
  | methodNotAllowed
  | internalError
  | routeNotFound
deriving DecidableEq, Repr

/-- Map a handler result to its response classification (spec §7:
BadRequest is the 400-class, NotFound the 404-class). -/
def respOf {α : Type} : Except ServerError α → HttpResp
  | .ok _ => .okJson
  | .error (.BadRequest m) => .clientError m
  | .error (.NotFound _) => .notFoundResp

/-- End-to-end dispatch of one request against the router and the four
subscription handlers: route, run the extractors the handler signature
declares (`Path<Uuid>` fails with a 400-class rejection on a malformed
segment and a 500-class rejection when the matched route has no capture
at all; `Json<Subscription>` fails with a 400-class rejection), then
run the handler. Non-subscription handlers are outside this core and
answer `okJson`. -/
def handleHttp (config : ServerConfig) (st : List Subscription) (m : Method)
    (path : List (List Char)) (body : Option Subscription) : HttpResp :=
  match route m path with
  | .pathNotFound => .routeNotFound
  | .methodNotAllowed => .methodNotAllowed
  | .found h caps =>
    match h with
    | .subscriptionsH => respOf (Server.subscriptions api.subscriptions config st)
    | .get_subscriptionH =>
      match caps with
      | [c] =>
        match parseUuid c with
        | some id => respOf (Server.get_subscription api.get_subscription config st id)
        | none => .clientError "Invalid URL".toList
      | _ => .internalError
    | .delete_subscriptionH =>
      match caps with
      | [c] =>
        match parseUuid c with
        | some id => respOf (Server.delete_subscription api.delete_subscription config st id)
        | none => .clientError "Invalid URL".toList
      | _ => .internalError
    | .add_subscriptionH =>
      match body with
      | some sub => respOf (Server.add_subscription api.add_subscription config st sub)
      | none => .clientError "Json rejection".toList
    | _ => .okJson

/-! ## Codec laws for the modelled schema -/

theorem digitVal_digitChar {d : Nat} (hd : d < 10) : digitVal (digitChar d) = some d := by
  interval_cases d <;> decide

theorem digitChar_ne_nl {d : Nat} (hd : d < 10) : digitChar d ≠ '\n' := by
  interval_cases d <;> decide

theorem digitChar_ne_pipe {d : Nat} (hd : d < 10) : digitChar d ≠ '|' := by
  interval_cases d <;> decide

theorem mem_revDigits : ∀ (n : Nat), ∀ c ∈ revDigits n, ∃ d, d < 10 ∧ c = digitChar d := by
  intro n
  induction n using revDigits.induct with
  | case1 =>
    intro c hc
    simp [revDigits] at hc
  | case2 n ih =>
    intro c hc
    rw [revDigits] at hc
    rcases List.mem_cons.mp hc with h | h
    · exact ⟨(n + 1) % 10, Nat.mod_lt _ (by omega), h⟩
    · exact ih c h

theorem parseDigits_append (xs ys : List Char) :
    ∀ acc, parseDigits acc (xs ++ ys) = parseDigits (parseDigits acc xs) ys := by
  induction xs with
  | nil => intro acc; rfl
  | cons c cs ih =>
    intro acc
    cases acc with
    | none => simp only [List.cons_append, List.append_eq, parseDigits, ih]
    | some a =>
      cases hdv : digitVal c with
      | some d => simp only [List.cons_append, List.append_eq, parseDigits, hdv, ih]
      | none => simp only [List.cons_append, List.append_eq, parseDigits, hdv, ih]

theorem parseDigits_revDigits :
    ∀ n a, parseDigits (some a) ((revDigits n).reverse) =
      some (a * 10 ^ (revDigits n).length + n) := by
  intro n
  induction n using Nat.strong_induction_on with
  | _ n ih =>
    match n with
    | 0 =>
      intro a
      simp [revDigits, parseDigits]
    | Nat.succ m =>
      intro a
      rw [revDigits, List.reverse_cons, parseDigits_append,
        ih ((m + 1) / 10) (Nat.div_lt_self (Nat.succ_pos m) (by omega)) a]
      show parseDigits _ [_] = _
      unfold parseDigits
      rw [digitVal_digitChar (Nat.mod_lt _ (by omega))]
      show some _ = some _
      congr 1
      have hdm := Nat.div_add_mod (m + 1) 10
      simp only [List.length_cons, pow_succ]
      set L := (revDigits ((m + 1) / 10)).length
      set X := 10 ^ L
      set q := (m + 1) / 10
      set r := (m + 1) % 10
      calc (a * X + q) * 10 + r = a * (X * 10) + (10 * q + r) := by ring
        _ = a * (X * 10) + (m + 1) := by rw [hdm]

theorem charsToNat_natToChars (n : Nat) : charsToNat (natToChars n) = some n := by
  by_cases hn : n = 0
  · subst hn; decide
  · unfold natToChars
    rw [if_neg hn]
    unfold charsToNat
    have hne : (revDigits n).reverse ≠ [] := by
      match n with
      | Nat.succ m => rw [revDigits]; simp
    rw [if_neg hne]
    simpa using parseDigits_revDigits n 0

theorem unesc_esc : ∀ s, unesc (esc s) = some s := by
  intro s
  induction s with
  | nil => rfl
  | cons c cs ih =>
    show unesc (escChar c ++ esc cs) = some (c :: cs)
    by_cases h1 : c = '\\'
    · subst h1; simp [escChar, unesc, ih]
    · by_cases h2 : c = '\n'
      · subst h2; simp [escChar, unesc, ih]
      · by_cases h3 : c = '|'
        · subst h3; simp [escChar, unesc, ih]
        · have hesc : escChar c ++ esc cs = c :: esc cs := by
            simp [escChar, h1, h2, h3]
          rw [hesc]
          unfold unesc
          rw [if_neg h1, ih]

theorem nl_not_mem_esc : ∀ s, '\n' ∉ esc s := by
  intro s
  induction s with
  | nil => simp [esc]
  | cons c cs ih =>
    simp only [esc, List.mem_append]
    rintro (h | h)
    · unfold escChar at h
      split at h
      · simp at h
      · split at h
        · simp at h
        · split at h
          · simp at h
          · simp only [List.mem_singleton] at h
            subst h
            simp_all
    · exact ih h

theorem pipe_not_mem_esc : ∀ s, '|' ∉ esc s := by
  intro s
  induction s with
  | nil => simp [esc]
  | cons c cs ih =>
    simp only [esc, List.mem_append]
    rintro (h | h)
    · unfold escChar at h
      split at h
      · simp at h
      · split at h
        · simp at h
        · split at h
          · simp at h
          · simp only [List.mem_singleton] at h
            subst h
            simp_all
    · exact ih h

theorem nl_not_mem_natToChars (n : Nat) : '\n' ∉ natToChars n := by
  unfold natToChars
  split
  · decide
  · intro h
    rw [List.mem_reverse] at h
    obtain ⟨d, hd, hc⟩ := mem_revDigits n '\n' h
    exact digitChar_ne_nl hd hc.symm

theorem pipe_not_mem_natToChars (n : Nat) : '|' ∉ natToChars n := by
  unfold natToChars
  split
  · decide
  · intro h
    rw [List.mem_reverse] at h
    obtain ⟨d, hd, hc⟩ := mem_revDigits n '|' h
    exact digitChar_ne_pipe hd hc.symm

theorem takeField_no_pipe : ∀ (xs : List Char), '|' ∉ xs → takeField xs = (xs, []) := by
  intro xs
  induction xs with
  | nil => intro _; rfl
  | cons c cs ih =>
    intro h
    have hc : c ≠ '|' := fun hcontra => h (by simp [hcontra])
    have hcs : '|' ∉ cs := fun hcontra => h (by simp [hcontra])
    simp [takeField, hc, ih hcs]

theorem takeField_append : ∀ (xs : List Char), '|' ∉ xs → ∀ rest,
    takeField (xs ++ '|' :: rest) = (xs, rest) := by
  intro xs
  induction xs with
  | nil => intro _ rest; simp [takeField]
  | cons c cs ih =>
    intro h rest
    have hc : c ≠ '|' := fun hcontra => h (by simp [hcontra])
    have hcs : '|' ∉ cs := fun hcontra => h (by simp [hcontra])
    simp [takeField, hc, ih hcs rest]

theorem parseKinds_map : ∀ ks : List EventKind, parseKinds (ks.map kindChar) = some ks := by
  intro ks
  induction ks with
  | nil => rfl
  | cons k rest ih =>
    cases k <;> simp [parseKinds, kindChar, ih]

theorem kindChar_ne_nl (k : EventKind) : kindChar k ≠ '\n' := by
  cases k <;> decide

theorem kindChar_ne_pipe (k : EventKind) : kindChar k ≠ '|' := by
  cases k <;> decide

theorem pipe_not_mem_kinds (ks : List EventKind) : '|' ∉ ks.map kindChar := by
  intro h
  obtain ⟨k, _, hk⟩ := List.mem_map.mp h
  exact kindChar_ne_pipe k hk

/-- Round trip for every `Event` variant. -/
theorem decode_encode_event (e : Event) : decodeEvent (encodeEvent e) = some e := by
  cases e with
  | newBlock h hs =>
    simp only [encodeEvent, decodeEvent,
      takeField_append "newBlock".toList (by decide) (natToChars h ++ '|' :: esc hs),
      takeField_append (natToChars h) (pipe_not_mem_natToChars h) (esc hs),
      takeField_no_pipe (esc hs) (pipe_not_mem_esc hs),
      charsToNat_natToChars, unesc_esc]
    simp
  | newTransaction t =>
    simp only [encodeEvent, decodeEvent,
      takeField_append "newTransaction".toList (by decide) (esc t), unesc_esc]
    simp
  | runeTransfer r a =>
    simp only [encodeEvent, decodeEvent,
      takeField_append "runeTransfer".toList (by decide) (esc r ++ '|' :: natToChars a),
      takeField_append (esc r) (pipe_not_mem_esc r) (natToChars a),
      takeField_no_pipe (natToChars a) (pipe_not_mem_natToChars a),
      charsToNat_natToChars, unesc_esc]
    simp
  | inscriptionReveal i =>
    simp only [encodeEvent, decodeEvent,
      takeField_append "inscriptionReveal".toList (by decide) (esc i), unesc_esc]
    simp

/-- Round trip for `TcpSubscriptionRequest`. -/
theorem decode_encode_request (r : TcpSubscriptionRequest) :
    decodeRequest (encodeRequest r) = some r := by
  obtain ⟨ks, f⟩ := r
  simp only [encodeRequest, decodeRequest,
    takeField_append (ks.map kindChar) (pipe_not_mem_kinds ks) (esc f),
    parseKinds_map, unesc_esc]

/-- An encoded `Event` is a single line: no embedded newline. -/
theorem nl_not_mem_encodeEvent (e : Event) : '\n' ∉ encodeEvent e := by
  cases e with
  | newBlock h hs =>
    simp only [encodeEvent, List.mem_append, List.mem_cons]
    rintro (ht | hp | hn | hp2 | hesc)
    · revert ht; decide
    · exact absurd hp (by decide)
    · exact nl_not_mem_natToChars h hn
    · exact absurd hp2 (by decide)
    · exact nl_not_mem_esc hs hesc
  | newTransaction t =>
    simp only [encodeEvent, List.mem_append, List.mem_cons]
    rintro (ht | hp | hesc)
    · revert ht; decide
    · exact absurd hp (by decide)
    · exact nl_not_mem_esc t hesc
  | runeTransfer r a =>
    simp only [encodeEvent, List.mem_append, List.mem_cons]
    rintro (ht | hp | hesc | hp2 | hn)
    · revert ht; decide
    · exact absurd hp (by decide)
    · exact nl_not_mem_esc r hesc
    · exact absurd hp2 (by decide)
    · exact nl_not_mem_natToChars a hn
  | inscriptionReveal i =>
    simp only [encodeEvent, List.mem_append, List.mem_cons]
    rintro (ht | hp | hesc)
    · revert ht; decide
    · exact absurd hp (by decide)
    · exact nl_not_mem_esc i hesc

/-- An encoded `TcpSubscriptionRequest` is a single line. -/
theorem nl_not_mem_encodeRequest (r : TcpSubscriptionRequest) :
    '\n' ∉ encodeRequest r := by
  simp only [encodeRequest, List.mem_append, List.mem_cons]
  rintro (hk | hp | hesc)
  · obtain ⟨k, _, hkc⟩ := List.mem_map.mp hk
    exact kindChar_ne_nl k hkc
  · exact absurd hp (by decide)
  · exact nl_not_mem_esc r.filter hesc

/-! ## The claims -/

/-- The wire bytes used for the C1 run: the first event line is split by
a `WouldBlock` between two reads. -/
def c1Chunks : List Chunk :=
  [.data "newBl".toList, .wouldBlock, .data "ock|7|ab\nnewTransaction|cd\n".toList]

/-- C1: the claim says every well-formed event line of the stream
reaches the consumer in order, with none lost, also across `WouldBlock`
retries. Evaluating the listener on a stream whose first event line is
interrupted by `WouldBlock` mid-line: the wire carries the two events
`newBlock 7 "ab"` and `newTransaction "cd"` (first conjunct), but the
consumer receives only the second, plus one parse diagnostic for the
orphaned tail of the first line (second conjunct) — the partial line
`read_line` had consumed before `WouldBlock` is discarded by the
`line.clear()` at the top of the next iteration, so the first event is
lost. -/
theorem C1_wouldBlock_partial_line_lost :
    wireEvents decodeEvent (streamBytes c1Chunks) =
      [.newBlock 7 "ab".toList, .newTransaction "cd".toList] ∧
    listener_loop decodeEvent (fun _ => false) (fun _ => true) 0 0 ⟨[], c1Chunks⟩ =
      ([.newTransaction "cd".toList], 1, .connClosed) := by
  constructor
  · decide
  · have r1 : read_line ⟨[], c1Chunks⟩ =
        (.wouldBlock "newBl".toList,
          ⟨[], [.data "ock|7|ab\nnewTransaction|cd\n".toList]⟩) := by decide
    rw [listener_loop_wb decodeEvent (fun _ => false) (fun _ => true) rfl r1]
    have r2 : read_line ⟨[], [.data "ock|7|ab\nnewTransaction|cd\n".toList]⟩ =
        (.ok "ock|7|ab\n".toList, ⟨"newTransaction|cd\n".toList, []⟩) := by decide
    rw [listener_loop_malformed decodeEvent (fun _ => false) (fun _ => true) rfl r2
      (by decide) (by decide) (by decide)]
    have r3 : read_line ⟨"newTransaction|cd\n".toList, []⟩ =
        (.ok "newTransaction|cd\n".toList, ⟨[], []⟩) := by decide
    rw [listener_loop_event decodeEvent (fun _ => false) (fun _ => true) rfl r3
      (by decide) (by decide)
      (by decide :
        decodeEvent (trim "newTransaction|cd\n".toList) =
          some (Event.newTransaction "cd".toList))
      rfl]
    rw [listener_loop_eof decodeEvent (fun _ => false) (fun _ => true) rfl
      (show read_line ⟨[], []⟩ = (.ok [], ⟨[], []⟩) from rfl)]

/-- The identifier used in the C2 run. -/
def uuidA : List Char := "3fa85f64-5717-4562-b3fc-2c963f66afa6".toList

/-- C2: the claim says a delete identifies its subscription by an id in
the request path, confirming when it exists and answering 404-class
when it does not. Evaluating the router of `Server::start` with the
feature enabled and the id present in the registry: a DELETE with the
id in the path is answered 405 (the `/subscription/{id}` pattern only
registers GET), and a DELETE on `/subscription` — where the delete
handler is actually registered — fails `Path<Uuid>` extraction with the
500-class missing-path-params rejection, because that pattern has no
capture. No delete request can reach the handler with an id from the
path, so neither the confirmation nor the 404 classification is
reachable. -/
theorem C2_delete_route_unreachable :
    handleHttp ⟨true⟩ [⟨uuidA, "f".toList⟩] .delete
        ["subscription".toList, uuidA] none = .methodNotAllowed ∧
    handleHttp ⟨true⟩ [⟨uuidA, "f".toList⟩] .delete
        ["subscription".toList] none = .internalError := by
  constructor <;> decide

/-- C3: with the feature flag disabled, each of the four subscription
handlers fails with the client-error classification carrying the
source's message, whatever the payload and whatever the registry
delegate would answer — the delegate is universally quantified, so the
result cannot depend on any registry call. -/
theorem C3_flag_disabled_client_error
    (api_list : List Subscription → Except ApiError (List Subscription))
    (api_get : List Subscription → List Char → Except ApiError Subscription)
    (api_add : List Subscription → Subscription → Except ApiError Subscription)
    (api_delete : List Subscription → List Char → Except ApiError Unit)
    (config : ServerConfig) (st : List Subscription) (id : List Char)
    (sub : Subscription) (h : config.enable_subscriptions = false) :
    Server.subscriptions api_list config st =
        .error (.BadRequest "subscriptions are not enabled".toList) ∧
    Server.get_subscription api_get config st id =
        .error (.BadRequest "subscriptions are not enabled".toList) ∧
    Server.add_subscription api_add config st sub =
        .error (.BadRequest "subscriptions are not enabled".toList) ∧
    Server.delete_subscription api_delete config st id =
        .error (.BadRequest "subscriptions are not enabled".toList) := by
  unfold Server.subscriptions Server.get_subscription Server.add_subscription
    Server.delete_subscription
  rw [h]
  simp

/-- Witness for C3 at the concrete registry operations and an empty
registry. -/
theorem C3_flag_disabled_client_error_witness :
    Server.subscriptions api.subscriptions ⟨false⟩ [] =
        .error (.BadRequest "subscriptions are not enabled".toList) ∧
    Server.get_subscription api.get_subscription ⟨false⟩ [] uuidA =
        .error (.BadRequest "subscriptions are not enabled".toList) ∧
    Server.add_subscription api.add_subscription ⟨false⟩ [] ⟨uuidA, "f".toList⟩ =
        .error (.BadRequest "subscriptions are not enabled".toList) ∧
    Server.delete_subscription api.delete_subscription ⟨false⟩ [] uuidA =
        .error (.BadRequest "subscriptions are not enabled".toList) :=
  C3_flag_disabled_client_error api.subscriptions api.get_subscription
    api.add_subscription api.delete_subscription ⟨false⟩ [] uuidA ⟨uuidA, "f".toList⟩ rfl

/-- C4: for every `Event` variant and for `TcpSubscriptionRequest`,
decoding the encoded value returns a value equal in all observable
fields, and the encoding is a single line with no embedded line
terminator. -/
theorem C4_roundtrip_single_line :
    (∀ e : Event, decodeEvent (encodeEvent e) = some e ∧ '\n' ∉ encodeEvent e) ∧
    (∀ r : TcpSubscriptionRequest,
      decodeRequest (encodeRequest r) = some r ∧ '\n' ∉ encodeRequest r) :=
  ⟨fun e => ⟨decode_encode_event e, nl_not_mem_encodeEvent e⟩,
   fun r => ⟨decode_encode_request r, nl_not_mem_encodeRequest r⟩⟩

/-- C5: a loop check that reads the asserted flag exits at that
iteration boundary with no further event (first conjunct); an event
decoded in the final in-flight iteration is still delivered on the
output — not discarded — and the loop then exits at the very next
check, one iteration after the flag became visible (second conjunct). -/
theorem C5_shutdown_bound {ε : Type} (dec : List Char → Option ε) (sd alive : Nat → Bool) :
    (∀ i k s, sd i = true → listener_loop dec sd alive i k s = ([], 0, .shutdown)) ∧
    (∀ i k s s' line e, sd i = false → sd (i + 1) = true →
      read_line s = (.ok line, s') → line ≠ [] → trim line ≠ [] →
      dec (trim line) = some e → alive k = true →
      listener_loop dec sd alive i k s = ([e], 0, .shutdown)) := by
  constructor
  · intro i k s hsd
    exact listener_loop_shutdown dec sd alive hsd
  · intro i k s s' line e hsd hsd1 hr hne htr hdec hal
    rw [listener_loop_event dec sd alive hsd hr hne htr hdec hal,
      listener_loop_shutdown dec sd alive hsd1]

/-- Witness for C5: the flag asserted from iteration 1 on lets the event
of iteration 0 through and stops the loop at the next check. -/
theorem C5_shutdown_bound_witness :
    listener_loop decodeEvent (fun j => decide (1 ≤ j)) (fun _ => true) 0 0
        ⟨"newTransaction|cd\n".toList, []⟩ =
      ([.newTransaction "cd".toList], 0, .shutdown) :=
  (C5_shutdown_bound decodeEvent (fun j => decide (1 ≤ j)) (fun _ => true)).2
    0 0 ⟨"newTransaction|cd\n".toList, []⟩ ⟨[], []⟩ "newTransaction|cd\n".toList
    (.newTransaction "cd".toList) (by decide) (by decide) (by decide) (by decide)
    (by decide)
    (by decide :
      decodeEvent (trim "newTransaction|cd\n".toList) =
        some (Event.newTransaction "cd".toList))
    (by decide)

/-- C6: a stream of a valid line, a malformed line and a valid line
yields exactly the two decoded events, one diagnostic for the malformed
line, and a loop that keeps running to the normal end of stream. -/
theorem C6_malformed_line_resilience {ε : Type} (dec : List Char → Option ε)
    (l1 m l2 : List Char) (e1 e2 : ε)
    (h1 : '\n' ∉ l1) (h2 : '\n' ∉ m) (h3 : '\n' ∉ l2)
    (t1 : trim l1 ≠ []) (d1 : dec (trim l1) = some e1)
    (t2 : trim m ≠ []) (d2 : dec (trim m) = none)
    (t3 : trim l2 ≠ []) (d3 : dec (trim l2) = some e2) :
    listener_loop dec (fun _ => false) (fun _ => true) 0 0
        ⟨[], [.data (l1 ++ '\n' :: (m ++ '\n' :: (l2 ++ ['\n'])))]⟩ =
      ([e1, e2], 1, .connClosed) := by
  have r1 := read_line_of_chunk h1 (m ++ '\n' :: (l2 ++ ['\n'])) []
  rw [listener_loop_event dec (fun _ => false) (fun _ => true) rfl r1 (by simp)
    (by rw [trim_append_nl]; exact t1) (by rw [trim_append_nl]; exact d1) rfl]
  have r2 := read_line_of_buf h2 (l2 ++ ['\n']) []
  rw [listener_loop_malformed dec (fun _ => false) (fun _ => true) rfl r2 (by simp)
    (by rw [trim_append_nl]; exact t2) (by rw [trim_append_nl]; exact d2)]
  have r3 := read_line_of_buf h3 [] []
  rw [listener_loop_event dec (fun _ => false) (fun _ => true) rfl r3 (by simp)
    (by rw [trim_append_nl]; exact t3) (by rw [trim_append_nl]; exact d3) rfl]
  rw [listener_loop_eof dec (fun _ => false) (fun _ => true) rfl
    (show read_line ⟨[], []⟩ = (.ok [], ⟨[], []⟩) from rfl)]

/-- Witness for C6 on concrete lines. -/
theorem C6_malformed_line_resilience_witness :
    listener_loop decodeEvent (fun _ => false) (fun _ => true) 0 0
        ⟨[], [.data ("newBlock|7|ab".toList ++ '\n' ::
          ("garbage".toList ++ '\n' :: ("newTransaction|cd".toList ++ ['\n'])))]⟩ =
      ([.newBlock 7 "ab".toList, .newTransaction "cd".toList], 1, .connClosed) :=
  C6_malformed_line_resilience decodeEvent "newBlock|7|ab".toList "garbage".toList
    "newTransaction|cd".toList (.newBlock 7 "ab".toList) (.newTransaction "cd".toList)
    (by decide) (by decide) (by decide) (by decide) (by decide) (by decide) (by decide)
    (by decide) (by decide)

/-- C7: a read that yields zero bytes — the stream exhausted, or the
next underlying read returning zero bytes — ends the loop as a normal
close: no further event, no error value on the output, exit reason
`connClosed` rather than `ioFailure`. -/
theorem C7_disconnect_clean_end {ε : Type} (dec : List Char → Option ε)
    (sd alive : Nat → Bool) :
    (∀ i k, sd i = false →
      listener_loop dec sd alive i k ⟨[], []⟩ = ([], 0, .connClosed)) ∧
    (∀ i k chs, sd i = false →
      listener_loop dec sd alive i k ⟨[], .data [] :: chs⟩ = ([], 0, .connClosed)) := by
  constructor
  · intro i k hsd
    exact listener_loop_eof dec sd alive hsd
      (show read_line ⟨[], []⟩ = (.ok [], ⟨[], []⟩) from rfl)
  · intro i k chs hsd
    exact listener_loop_eof dec sd alive hsd
      (show read_line ⟨[], .data [] :: chs⟩ = (.ok [], ⟨[], chs⟩) from rfl)

/-- Witness for C7. -/
theorem C7_disconnect_clean_end_witness :
    listener_loop decodeEvent (fun _ => false) (fun _ => true) 0 0 ⟨[], []⟩ =
      ([], 0, .connClosed) :=
  (C7_disconnect_clean_end decodeEvent (fun _ => false) (fun _ => true)).1 0 0 rfl

/-- C8: a connect failure is returned to the caller at once — a single
connect attempt, no retry, nothing else performed (first conjunct); on
success the serialized request is written, followed by exactly one
newline, then the flush, and only after these does the reader spawn
happen — the receiver is returned after the handshake and no event is
read before it (second conjunct). -/
theorem C8_connect_then_handshake :
    (∀ addr e r2 r3 r4 r5 r6 r7,
      subscribe addr ⟨.error e, r2, r3, r4, r5, r6, r7⟩ =
        ([.connectTo addr], .error (.IOError e))) ∧
    (∀ addr js,
      subscribe addr ⟨.ok (), .ok (), .ok (), .ok js, .ok (), .ok (), .ok ()⟩ =
        ([.connectTo addr, .setNonblockingCall, .tryCloneCall,
          .writeCall js, .writeCall ['\n'], .flushCall, .spawnReader], .ok ())) :=
  ⟨fun _ _ _ _ _ _ _ _ => rfl, fun _ _ => rfl⟩

/-- C9: with the consuming half dropped before the `k`-th send, the
output delivers no event at all (first conjunct), and the iteration
that decodes an event exits at that very send attempt with
`recvDropped` instead of reading on (second conjunct). -/
theorem C9_consumer_gone {ε : Type} (dec : List Char → Option ε) (sd alive : Nat → Bool)
    (k : Nat) (hdead : ∀ j, k ≤ j → alive j = false) :
    (∀ i s, (listener_loop dec sd alive i k s).1 = []) ∧
    (∀ i s s' line e, sd i = false → read_line s = (.ok line, s') → line ≠ [] →
      trim line ≠ [] → dec (trim line) = some e →
      listener_loop dec sd alive i k s = ([], 0, .recvDropped)) := by
  constructor
  · intro i s
    exact listener_loop_dead dec sd alive i k s hdead
  · intro i s s' line e hsd hr hne htr hdec
    exact listener_loop_dropped dec sd alive hsd hr hne htr hdec
      (hdead k (Nat.le_refl k))

/-- Witness for C9: a dropped consumer and a decodable line. -/
theorem C9_consumer_gone_witness :
    listener_loop decodeEvent (fun _ => false) (fun _ => false) 0 0
        ⟨"newTransaction|cd\n".toList, []⟩ = ([], 0, .recvDropped) :=
  (C9_consumer_gone decodeEvent (fun _ => false) (fun _ => false) 0
      (fun _ _ => rfl)).2
    0 ⟨"newTransaction|cd\n".toList, []⟩ ⟨[], []⟩ "newTransaction|cd\n".toList
    (.newTransaction "cd".toList) (by decide) (by decide) (by decide) (by decide)
    (by decide :
      decodeEvent (trim "newTransaction|cd\n".toList) =
        some (Event.newTransaction "cd".toList))

/-- C10: each post-connection setup failure — non-blocking mode, clone,
serialization, the two writes, the flush — returns the corresponding
error to the caller with the prior actions performed and nothing after
(first six conjuncts), and the reader thread is spawned only when the
whole setup succeeded, so no receiver is produced on any failure (last
conjunct). -/
theorem C10_setup_failure_propagates :
    (∀ addr e r3 r4 r5 r6 r7,
      subscribe addr ⟨.ok (), .error e, r3, r4, r5, r6, r7⟩ =
        ([.connectTo addr, .setNonblockingCall], .error (.IOError e))) ∧
    (∀ addr e r4 r5 r6 r7,
      subscribe addr ⟨.ok (), .ok (), .error e, r4, r5, r6, r7⟩ =
        ([.connectTo addr, .setNonblockingCall, .tryCloneCall], .error (.IOError e))) ∧
    (∀ addr e r5 r6 r7,
      subscribe addr ⟨.ok (), .ok (), .ok (), .error e, r5, r6, r7⟩ =
        ([.connectTo addr, .setNonblockingCall, .tryCloneCall], .error (.SerdeError e))) ∧
    (∀ addr js e r6 r7,
      subscribe addr ⟨.ok (), .ok (), .ok (), .ok js, .error e, r6, r7⟩ =
        ([.connectTo addr, .setNonblockingCall, .tryCloneCall, .writeCall js],
          .error (.IOError e))) ∧
    (∀ addr js e r7,
      subscribe addr ⟨.ok (), .ok (), .ok (), .ok js, .ok (), .error e, r7⟩ =
        ([.connectTo addr, .setNonblockingCall, .tryCloneCall, .writeCall js,
          .writeCall ['\n']], .error (.IOError e))) ∧
    (∀ addr js e,
      subscribe addr ⟨.ok (), .ok (), .ok (), .ok js, .ok (), .ok (), .error e⟩ =
        ([.connectTo addr, .setNonblockingCall, .tryCloneCall, .writeCall js,
          .writeCall ['\n'], .flushCall], .error (.IOError e))) ∧
    (∀ addr ops, .spawnReader ∈ (subscribe addr ops).1 →
      (subscribe addr ops).2 = .ok ()) := by
  refine ⟨fun _ _ _ _ _ _ _ => rfl, fun _ _ _ _ _ _ => rfl, fun _ _ _ _ _ => rfl,
    fun _ _ _ _ _ => rfl, fun _ _ _ _ => rfl, fun _ _ _ => rfl, ?_⟩
  intro addr ops
  obtain ⟨c, s, t, j, w1, w2, fl⟩ := ops
  cases c <;> cases s <;> cases t <;> cases j <;> cases w1 <;> cases w2 <;> cases fl <;>
    simp [subscribe]

/-- Witness for C10: a failing clone propagates and no reader spawns. -/
theorem C10_setup_failure_propagates_witness :
    subscribe "a".toList ⟨.ok (), .ok (), .error "boom".toList, .ok "j".toList,
        .ok (), .ok (), .ok ()⟩ =
      ([.connectTo "a".toList, .setNonblockingCall, .tryCloneCall],
        .error (.IOError "boom".toList)) ∧
    ((.spawnReader ∈ (subscribe "a".toList ⟨.ok (), .ok (), .error "boom".toList,
        .ok "j".toList, .ok (), .ok (), .ok ()⟩).1) →
      (subscribe "a".toList ⟨.ok (), .ok (), .error "boom".toList, .ok "j".toList,
        .ok (), .ok (), .ok ()⟩).2 = .ok ()) :=
  ⟨C10_setup_failure_propagates.2.1 "a".toList "boom".toList (.ok "j".toList)
      (.ok ()) (.ok ()) (.ok ()),
   C10_setup_failure_propagates.2.2.2.2.2.2 "a".toList _⟩

end Titan
